import Mathlib

/-!
Shallow embedding of the deepinv proximal-splitting core: tensors as flat lists
of scalars, the Chambolle-Pock and Condat-Vu single-iteration transitions, the
Prior hierarchy (base prox / prox_conjugate, PnP, Tikhonov), and the parameter
schedule / unrolled-builder data model, together with theorems checking the
specification's claims against these embedded definitions.
-/

namespace DeepInv

/-- Tensors are modelled as flat lists of scalars; the list length plays the
role of the tensor shape. -/
abbrev Tensor (α : Type) : Type := List α

/-- Elementwise tensor addition. -/
def tadd {α : Type} [Add α] (a b : Tensor α) : Tensor α :=
  List.zipWith (fun u v => u + v) a b

/-- Elementwise tensor subtraction. -/
def tsub {α : Type} [Sub α] (a b : Tensor α) : Tensor α :=
  List.zipWith (fun u v => u - v) a b

/-- Scalar-tensor product. -/
def smul {α : Type} [Mul α] (c : α) (a : Tensor α) : Tensor α :=
  a.map (fun v => c * v)

/-- Elementwise division of a tensor by a scalar. -/
def sdiv {α : Type} [Div α] (a : Tensor α) (c : α) : Tensor α :=
  a.map (fun v => v / c)

/-- Sum of squared entries: the squared L2 norm of a flat tensor. -/
def sqnorm {α : Type} [Mul α] [Add α] [Zero α] (a : Tensor α) : α :=
  (a.map (fun v => v * v)).sum

/-- External forward operator ("physics"): the opaque capability pair
{A, A_adjoint} that the spec assigns to external collaborators. -/
structure Physics (α : Type) where
  A : Tensor α → Tensor α
  A_adjoint : Tensor α → Tensor α

/-- The prior capabilities an iterator consumes: prox (x, gamma, g_param) and
prox_conjugate (x, sigma, g_param), matching the call sites in
primal_dual_CP.py and demo_PnP_custom_optim.py. -/
structure PriorFns (α : Type) where
  prox : Tensor α → α → α → Tensor α
  prox_conjugate : Tensor α → α → α → Tensor α

/-- The data-fidelity capabilities an iterator consumes: prox (p, y, physics,
step) and prox_d_conjugate (p, y, sigma, lamb), matching the call sites in
primal_dual_CP.py and demo_PnP_custom_optim.py. -/
structure DataFidelityFns (α : Type) where
  prox : Tensor α → Tensor α → Physics α → α → Tensor α
  prox_d_conjugate : Tensor α → Tensor α → α → α → Tensor α

/-- The parameter-dictionary entries the Chambolle-Pock iteration reads:
"stepsize", "sigma", "lambda", "g_param", and the optional "K" / "K_adjoint"
operators (a missing dictionary key is Option.none). -/
structure CPParams (α : Type) where
  stepsize : α
  sigma : α
  lambda : α
  g_param : α
  K : Option (Tensor α → Tensor α)
  K_adjoint : Option (Tensor α → Tensor α)

/-- Embeds the dictionary-lookup defaults of CPIteration.forward
(primal_dual_CP.py:60-65): apply the stored operator when the key is present,
otherwise the identity. -/
def dictOp {α : Type} (o : Option (Tensor α → Tensor α)) (t : Tensor α) : Tensor α :=
  match o with
  | some f => f t
  | none => t

/-- The state dictionary {"est": ..., "cost": ...} threaded through one
iteration of an OptimIterator. -/
structure IterState (α : Type) (E : Type) where
  est : E
  cost : Option α

/-- Embeds fStepCP.forward (primal_dual_CP.py:86-104); `g_first` and the
data-fidelity instance are the module attributes fixed at construction. -/
def fStepCP_forward {α : Type} [Ring α] (data_fidelity : DataFidelityFns α)
    (g_first : Bool) (x w y : Tensor α) (physics : Physics α)
    (cur_params : CPParams α) : Tensor α :=
  if g_first then
    data_fidelity.prox (tsub x (smul cur_params.stepsize w)) y physics
      (cur_params.stepsize * cur_params.lambda)
  else
    data_fidelity.prox_d_conjugate (tadd x (smul cur_params.sigma w)) y
      cur_params.sigma cur_params.lambda

/-- Embeds gStepCP.forward (primal_dual_CP.py:115-131). -/
def gStepCP_forward {α : Type} [Ring α] (g_first : Bool) (x w : Tensor α)
    (cur_prior : PriorFns α) (cur_params : CPParams α) : Tensor α :=
  if g_first then
    cur_prior.prox_conjugate (tadd x (smul cur_params.sigma w)) cur_params.sigma
      cur_params.g_param
  else
    cur_prior.prox (tsub x (smul cur_params.stepsize w)) cur_params.stepsize
      cur_params.g_param

/-- Embeds CPIteration.forward (primal_dual_CP.py:48-75); `g_first`, `beta`,
`has_cost`, `F_fn` and the data-fidelity are OptimIterator attributes fixed at
construction, and the state is the {"est", "cost"} dictionary with a 3-tuple
estimate (x, z, u). -/
def CPIteration_forward {α : Type} [Ring α] (data_fidelity : DataFidelityFns α)
    (g_first : Bool) (beta : α) (has_cost : Bool)
    (F_fn : Tensor α → PriorFns α → CPParams α → Tensor α → Physics α → α)
    (X : IterState α (Tensor α × Tensor α × Tensor α)) (cur_prior : PriorFns α)
    (cur_params : CPParams α) (y : Tensor α) (physics : Physics α) :
    IterState α (Tensor α × Tensor α × Tensor α) :=
  let x_prev := X.est.1
  let z_prev := X.est.2.1
  let u_prev := X.est.2.2
  let xu :=
    if g_first then
      let u := gStepCP_forward g_first u_prev (dictOp cur_params.K z_prev)
        cur_prior cur_params
      let x := fStepCP_forward data_fidelity g_first x_prev
        (dictOp cur_params.K_adjoint u) y physics cur_params
      (x, u)
    else
      let u := fStepCP_forward data_fidelity g_first u_prev
        (dictOp cur_params.K z_prev) y physics cur_params
      let x := gStepCP_forward g_first x_prev (dictOp cur_params.K_adjoint u)
        cur_prior cur_params
      (x, u)
  let z := tadd xu.1 (smul beta (tsub xu.1 x_prev))
  { est := (xu.1, z, xu.2),
    cost := if has_cost then some (F_fn xu.1 cur_prior cur_params y physics) else none }

/-- The parameter-dictionary entries the Condat-Vu demo iterator reads:
"stepsize", "sigma", "lambda", "g_param". -/
structure CVParams (α : Type) where
  stepsize : α
  sigma : α
  lambda : α
  g_param : α

/-- Embeds gStepCV.forward (demo_PnP_custom_optim.py:111-124). -/
def gStepCV_forward {α : Type} [Ring α] (x Atu : Tensor α)
    (cur_prior : PriorFns α) (cur_params : CVParams α) : Tensor α :=
  cur_prior.prox (tsub x (smul cur_params.stepsize Atu)) cur_params.stepsize
    cur_params.g_param

/-- Embeds fStepCV.forward (demo_PnP_custom_optim.py:85-95). -/
def fStepCV_forward {α : Type} [Ring α] (data_fidelity : DataFidelityFns α)
    (z y : Tensor α) (cur_params : CVParams α) : Tensor α :=
  data_fidelity.prox_d_conjugate z y cur_params.sigma cur_params.lambda

/-- Embeds CVIteration.forward (demo_PnP_custom_optim.py:48-66): first the
primal update x = gStep(x_prev, A_adjoint(u_prev)), then the dual update
u = fStep(A(2*x - x_prev), y). -/
def CVIteration_forward {α : Type} [Ring α] (data_fidelity : DataFidelityFns α)
    (has_cost : Bool) (F_fn : Tensor α → CVParams α → Tensor α → Physics α → α)
    (X : IterState α (Tensor α × Tensor α)) (cur_prior : PriorFns α)
    (cur_params : CVParams α) (y : Tensor α) (physics : Physics α) :
    IterState α (Tensor α × Tensor α) :=
  let x_prev := X.est.1
  let u_prev := X.est.2
  let x := gStepCV_forward x_prev (physics.A_adjoint u_prev) cur_prior cur_params
  let u := fStepCV_forward data_fidelity (physics.A (tsub (smul 2 x) x_prev)) y
    cur_params
  { est := (x, u),
    cost := if has_cost then some (F_fn x cur_params y physics) else none }

/-- Embeds PnP.prox (prior.py:119-127): the proximity operator is the denoiser
evaluated at noise level sigma_denoiser; the stepsize gamma is not used. -/
def PnP_prox {α : Type} (denoiser : Tensor α → α → Tensor α) (x : Tensor α)
    (gamma sigma_denoiser : α) : Tensor α :=
  denoiser x sigma_denoiser

/-- C1: with g_first = False, one Chambolle-Pock iteration maps the state
(x, z, u) to (x_new, z_new, u_new) where u_new is the data-fidelity
conjugate-prox (stepsize sigma, weight lambda) at u + sigma*K(z), x_new is the
prior prox (stepsize tau = the "stepsize" parameter) at
x - tau*K_adjoint(u_new), and z_new = x_new + beta*(x_new - x); moreover a
missing "K" / "K_adjoint" dictionary entry resolves to the identity map. -/
theorem cp_forward_g_last_spec {α : Type} [Ring α] (d : DataFidelityFns α)
    (beta : α) (has_cost : Bool)
    (F_fn : Tensor α → PriorFns α → CPParams α → Tensor α → Physics α → α)
    (pr : PriorFns α) (p : CPParams α) (x z u : Tensor α) (c : Option α)
    (y : Tensor α) (phy : Physics α) :
    (CPIteration_forward d false beta has_cost F_fn ⟨(x, z, u), c⟩ pr p y phy).est =
      (let u_new := d.prox_d_conjugate (tadd u (smul p.sigma (dictOp p.K z))) y
         p.sigma p.lambda
       let x_new := pr.prox (tsub x (smul p.stepsize (dictOp p.K_adjoint u_new)))
         p.stepsize p.g_param
       (x_new, tadd x_new (smul beta (tsub x_new x)), u_new))
    ∧ (∀ t : Tensor α, dictOp (none : Option (Tensor α → Tensor α)) t = t) :=
  ⟨rfl, fun _ => rfl⟩

/-- C2 (amended): one Condat-Vu iteration maps the state (x, u) to
(x_new, u_new) where x_new is the prior prox (stepsize tau = "stepsize") at
x - tau*A_adjoint(u) and u_new is the data-fidelity conjugate-prox (stepsize
sigma, weight lambda) at A(2*x_new - x): the forward operator is applied to the
extrapolated primal point 2*x_new - x, which equals 2*A(x_new) - A(x) only when
A is linear. -/
theorem cv_forward_spec {α : Type} [Ring α] (d : DataFidelityFns α)
    (has_cost : Bool) (F_fn : Tensor α → CVParams α → Tensor α → Physics α → α)
    (pr : PriorFns α) (p : CVParams α) (x u : Tensor α) (c : Option α)
    (y : Tensor α) (phy : Physics α) :
    (CVIteration_forward d has_cost F_fn ⟨(x, u), c⟩ pr p y phy).est =
      (let x_new := pr.prox (tsub x (smul p.stepsize (phy.A_adjoint u)))
         p.stepsize p.g_param
       (x_new, d.prox_d_conjugate (phy.A (tsub (smul 2 x_new) x)) y p.sigma
         p.lambda)) :=
  rfl

/-- A nonlinear forward operator (elementwise square) separating
A(2*x_new - x) from 2*A(x_new) - A(x) in concrete evaluations. -/
def sqPhysics : Physics ℤ :=
  { A := fun t => t.map (fun v => v * v), A_adjoint := fun t => t }

/-- Identity prior capabilities for concrete evaluations. -/
def idPriorFns : PriorFns ℤ :=
  { prox := fun t _ _ => t, prox_conjugate := fun t _ _ => t }

/-- Identity data-fidelity capabilities for concrete evaluations. -/
def idFidelityFns : DataFidelityFns ℤ :=
  { prox := fun t _ _ _ => t, prox_d_conjugate := fun t _ _ _ => t }

/-- A concrete Condat-Vu parameter dictionary with all entries 1. -/
def cvTestParams : CVParams ℤ :=
  { stepsize := 1, sigma := 1, lambda := 1, g_param := 1 }

/-- C2 counterexample: with the nonlinear physics A(t) = t*t elementwise,
identity prox and conjugate-prox, all parameters 1, state ([1], [1]) and
y = [0], the iteration applies the conjugate-prox at A(2*x_new - x) = [1]
while the claim's point 2*A(x_new) - A(x) is [-1], so the returned estimate
differs from the claimed one. -/
theorem cv_claim_counterexample :
    (CVIteration_forward idFidelityFns false (fun _ _ _ _ => 0)
        { est := ([1], [1]), cost := none } idPriorFns cvTestParams [0]
        sqPhysics).est ≠
      (idPriorFns.prox
          (tsub [1] (smul cvTestParams.stepsize (sqPhysics.A_adjoint [1])))
          cvTestParams.stepsize cvTestParams.g_param,
        idFidelityFns.prox_d_conjugate
          (tsub
            (smul 2 (sqPhysics.A (idPriorFns.prox
              (tsub [1] (smul cvTestParams.stepsize (sqPhysics.A_adjoint [1])))
              cvTestParams.stepsize cvTestParams.g_param)))
            (sqPhysics.A [1]))
          [0] cvTestParams.sigma cvTestParams.lambda) := by
  decide

/-- C5: PnP.prox returns exactly the denoiser evaluated at (x, sigma) and is
independent of the stepsize gamma. -/
theorem pnp_prox_is_denoiser {α : Type} (D : Tensor α → α → Tensor α)
    (x : Tensor α) (γ γ' σ : α) :
    PnP_prox D x γ σ = D x σ ∧ PnP_prox D x γ σ = PnP_prox D x γ' σ :=
  ⟨rfl, rfl⟩

/-- Python runtime errors relevant here: TypeError (calling a None attribute)
and AttributeError (touching machinery an initializer never set up). -/
inductive PyError : Type where
  | typeError : PyError
  | attributeError : PyError
  deriving DecidableEq

/-- The attribute state Prior.__init__ (prior.py:32-35) leaves on the object:
the stored potential `_g` (here gfun), the explicit_prior flag, and whether the
nn.Module base initializer ran (it does: super().__init__() is the first line). -/
structure PriorState (α : Type) where
  gfun : Option (Tensor α → α)
  explicit_prior : Bool
  moduleReady : Bool

/-- Embeds Prior.__init__ (prior.py:32-35). A Python constructor may raise,
hence the Except codomain; this constructor raises nothing: it runs the base
initializer, stores g, and sets explicit_prior to False iff g is None. -/
def Prior_init {α : Type} (g : Option (Tensor α → α)) : Except PyError (PriorState α) :=
  Except.ok { gfun := g, explicit_prior := g.isSome, moduleReady := true }

/-- Embeds Prior.g (prior.py:37-44): returns self._g(x); in Python, calling the
stored None raises a TypeError at that point. -/
def Prior_g {α : Type} (s : PriorState α) (x : Tensor α) : Except PyError α :=
  match s.gfun with
  | some f => Except.ok (f x)
  | none => Except.error PyError.typeError

/-- Modelled from the spec: the inner loop of `gradient_descent`
(deepinv.optim.utils, not under src/): on fuel n+1 it applies
z_next = z - step_size*grad(z) and stops when successive iterates differ in L2
by less than tol (the comparison is expressed on squared norms) or when the
fuel is exhausted, returning the iterate reached. -/
def gdLoop (gradf : Tensor ℚ → Tensor ℚ) (step_size tol : ℚ) :
    ℕ → Tensor ℚ → Tensor ℚ
  | 0, z => z
  | n + 1, z =>
    let znext := tsub z (smul step_size (gradf z))
    if sqnorm (tsub znext z) < tol * tol then znext
    else gdLoop gradf step_size tol n znext

/-- Modelled from the spec: `gradient_descent` (deepinv.optim.utils) is not
under src/; per §4.2 of the spec it repeatedly applies
z ← z - step_size*grad(z) until successive iterates differ (in L2) by less
than tol or max_iter iterations are reached, and returns the iterate reached. -/
def gradient_descent (gradf : Tensor ℚ → Tensor ℚ) (x : Tensor ℚ)
    (step_size : ℚ) (max_iter : ℕ) (tol : ℚ) : Tensor ℚ :=
  gdLoop gradf step_size tol max_iter x

/-- Number of update steps the inner gradient-descent loop performs on the
given fuel. -/
def gdSteps (gradf : Tensor ℚ → Tensor ℚ) (step_size tol : ℚ) :
    ℕ → Tensor ℚ → ℕ
  | 0, _ => 0
  | n + 1, z =>
    let znext := tsub z (smul step_size (gradf z))
    if sqnorm (tsub znext z) < tol * tol then 1
    else 1 + gdSteps gradf step_size tol n znext

/-- The inner loop never performs more update steps than its fuel allows. -/
theorem gdSteps_le (gradf : Tensor ℚ → Tensor ℚ) (step_size tol : ℚ) :
    ∀ (n : ℕ) (z : Tensor ℚ), gdSteps gradf step_size tol n z ≤ n := by
  intro n
  induction n with
  | zero => intro z; exact Nat.le_refl 0
  | succ m ih =>
    intro z
    simp only [gdSteps]
    by_cases h :
        sqnorm (tsub (tsub z (smul step_size (gradf z))) z) < tol * tol
    · simp [h]
    · simp only [h, if_false]
      have := Nat.add_le_add_left (ih (tsub z (smul step_size (gradf z)))) 1
      omega

/-- Embeds Prior.prox (prior.py:70-93): an inner gradient descent on the map
z ↦ gamma*grad(z) + (z - x), started at x; `grad` stands for the prior's
(autodiff-computed) gradient self.grad, which the prox composes unevaluated. -/
def Prior_prox (grad : Tensor ℚ → Tensor ℚ) (x : Tensor ℚ)
    (gamma stepsize_inter : ℚ) (max_iter_inter : ℕ) (tol_inter : ℚ) : Tensor ℚ :=
  gradient_descent (fun z => tadd (smul gamma (grad z)) (tsub z x)) x
    stepsize_inter max_iter_inter tol_inter

/-- Prior.prox with its default keyword arguments stepsize_inter = 1.0,
max_iter_inter = 50, tol_inter = 1e-3. -/
def Prior_prox_default (grad : Tensor ℚ → Tensor ℚ) (x : Tensor ℚ)
    (gamma : ℚ) : Tensor ℚ :=
  Prior_prox grad x gamma 1 50 (1 / 1000)

/-- C6: Prior.prox runs an inner gradient descent on
z ↦ gamma*grad(z) + (z - x), started at x, with default inner stepsize 1.0,
default tolerance 1e-3 and default iteration cap 50, and the inner sub-solve
performs at most max_iter_inter update steps regardless of whether the
tolerance is met, returning the iterate reached. -/
theorem prior_prox_inner_gradient_descent (grad : Tensor ℚ → Tensor ℚ)
    (x : Tensor ℚ) (γ s t : ℚ) (n : ℕ) :
    Prior_prox_default grad x γ =
        gradient_descent (fun z => tadd (smul γ (grad z)) (tsub z x)) x 1 50
          (1 / 1000)
      ∧ Prior_prox grad x γ s n t =
        gdLoop (fun z => tadd (smul γ (grad z)) (tsub z x)) s t n x
      ∧ gdSteps (fun z => tadd (smul γ (grad z)) (tsub z x)) s t n x ≤ n :=
  ⟨rfl, rfl, gdSteps_le _ _ _ _ _⟩

/-- C7 counterexample: constructing a Prior with g = None raises nothing; it
returns a fully built object whose explicit_prior flag is False. -/
theorem prior_init_none_no_error :
    Prior_init (α := ℚ) none =
      Except.ok { gfun := none, explicit_prior := false, moduleReady := true } :=
  rfl

/-- C7 (amended): constructing a Prior with g = None succeeds (no configuration
error is raised; explicit_prior is set to False), and the failure is deferred
to the first call that uses the potential, where evaluating the missing g
raises a TypeError. -/
theorem prior_init_none_defers (x : Tensor ℚ) :
    Prior_init (α := ℚ) none =
        Except.ok { gfun := none, explicit_prior := false, moduleReady := true }
      ∧ Prior_g { gfun := none, explicit_prior := false, moduleReady := true } x =
        Except.error PyError.typeError :=
  ⟨rfl, rfl⟩

/-- Scalar multiplications compose multiplicatively. -/
theorem smul_smul_t {α : Type} [CommRing α] (a b : α) (t : Tensor α) :
    smul a (smul b t) = smul (a * b) t := by
  simp [smul, List.map_map, Function.comp, mul_assoc]

/-- Scalar multiplication by one is the identity. -/
theorem one_smul_t {α : Type} [CommRing α] (t : Tensor α) : smul 1 t = t := by
  simp [smul]

/-- Scalar multiplication distributes over elementwise subtraction. -/
theorem smul_tsub {α : Type} [CommRing α] (c : α) (a : Tensor α) :
    ∀ b : Tensor α, smul c (tsub a b) = tsub (smul c a) (smul c b) := by
  induction a with
  | nil => intro b; rfl
  | cons x xs ih =>
    intro b
    cases b with
    | nil => rfl
    | cons y ys =>
      calc smul c (tsub (x :: xs) (y :: ys))
          = c * (x - y) :: smul c (tsub xs ys) := rfl
        _ = (c * x - c * y) :: tsub (smul c xs) (smul c ys) := by
            rw [mul_sub, ih ys]
        _ = tsub (smul c (x :: xs)) (smul c (y :: ys)) := rfl

/-- Adding back what was subtracted reconstructs the tensor, provided the two
tensors have the same length. -/
theorem tadd_tsub_cancel {α : Type} [CommRing α] :
    ∀ (a b : Tensor α), b.length = a.length → tadd b (tsub a b) = a := by
  intro a
  induction a with
  | nil =>
    intro b hb
    rw [List.length_nil, List.length_eq_zero] at hb
    subst hb
    rfl
  | cons x xs ih =>
    intro b hb
    cases b with
    | nil => simp at hb
    | cons y ys =>
      simp only [List.length_cons, Nat.succ.injEq] at hb
      calc tadd (y :: ys) (tsub (x :: xs) (y :: ys))
          = (y + (x - y)) :: tadd ys (tsub xs ys) := rfl
        _ = x :: xs := by rw [ih ys hb]; congr 1; ring

/-- Dividing elementwise by gamma and then by 1/gamma is the identity when
gamma is nonzero. -/
theorem sdiv_sdiv_cancel (x : Tensor ℝ) (γ : ℝ) (hne : γ ≠ 0) :
    sdiv (sdiv x γ) (1 / γ) = x := by
  unfold sdiv
  rw [List.map_map]
  have hf : ((fun v : ℝ => v / (1 / γ)) ∘ fun v : ℝ => v / γ) = id := by
    funext v
    simp only [Function.comp, id]
    field_simp
  rw [hf, List.map_id]

/-- Multiplying elementwise by gamma undoes elementwise division by gamma when
gamma is nonzero. -/
theorem smul_sdiv_cancel (x : Tensor ℝ) (γ : ℝ) (hne : γ ≠ 0) :
    smul γ (sdiv x γ) = x := by
  unfold smul sdiv
  rw [List.map_map]
  have hf : ((fun v : ℝ => γ * v) ∘ fun v : ℝ => v / γ) = id := by
    funext v
    simp only [Function.comp, id]
    field_simp
  rw [hf, List.map_id]

/-- Embeds Prior.prox_conjugate (prior.py:95-106): the Moreau formula
x - gamma * prox(x/gamma, lamb/gamma); the tensor-by-scalar division x/gamma is
elementwise. -/
noncomputable def prox_conjugate (prox : Tensor ℝ → ℝ → Tensor ℝ) (x : Tensor ℝ)
    (gamma lamb : ℝ) : Tensor ℝ :=
  tsub x (smul gamma (prox (sdiv x gamma) (lamb / gamma)))

/-- Embeds Tikhonov.prox (prior.py:177-185): (1/(gamma+1)) * x. -/
noncomputable def Tikhonov_prox (x : Tensor ℝ) (gamma : ℝ) : Tensor ℝ :=
  smul (1 / (gamma + 1)) x

/-- Embeds Tikhonov.grad (prior.py:168-175): the identity map. -/
def Tikhonov_grad (x : Tensor ℝ) : Tensor ℝ := x

/-- Embeds Tikhonov.g (prior.py:159-166) on a batch of flattened tensors:
0.5 * torch.norm(x.view(B, -1), p=2, dim=-1), i.e. half the (unsquared) L2
norm of each batch element. -/
noncomputable def Tikhonov_g (x : List (Tensor ℝ)) : List ℝ :=
  x.map (fun t => (1 / 2) * Real.sqrt (sqnorm t))

/-- C3: for any prior using the default prox_conjugate (the Moreau formula with
lamb = 1), any input x and any gamma > 0, prox(x, gamma) +
gamma * prox_conjugate(x/gamma, 1/gamma) reconstructs x, provided prox keeps
the tensor shape; the hypothesis holds in particular for the Tikhonov prox
x/(gamma+1), which the witness instantiates. -/
theorem moreau_roundtrip (prox : Tensor ℝ → ℝ → Tensor ℝ) (x : Tensor ℝ)
    (γ : ℝ) (hγ : 0 < γ) (hlen : (prox x γ).length = x.length) :
    tadd (prox x γ) (smul γ (prox_conjugate prox (sdiv x γ) (1 / γ) 1)) = x := by
  have hne : γ ≠ 0 := ne_of_gt hγ
  unfold prox_conjugate
  rw [sdiv_sdiv_cancel x γ hne, one_div_one_div, smul_tsub,
    smul_sdiv_cancel x γ hne, smul_smul_t, mul_one_div_cancel hne, one_smul_t]
  exact tadd_tsub_cancel x (prox x γ) hlen

/-- Witness for C3: the Moreau round-trip evaluated for the Tikhonov prox at
x = [1], gamma = 2. -/
theorem moreau_roundtrip_witness :
    (0 : ℝ) < 2 ∧
      tadd (Tikhonov_prox [1] 2)
        (smul 2 (prox_conjugate Tikhonov_prox (sdiv [1] 2) (1 / 2) 1)) = [1] :=
  ⟨by norm_num, moreau_roundtrip Tikhonov_prox [1] 2 (by norm_num) rfl⟩

/-- C4: Tikhonov.g at the batch [[3, 4]] evaluates to 0.5 * sqrt(3*3 + 4*4) =
5/2, the unsquared L2 norm halved, and differs from the claimed (and
docstring's) quadratic potential value 0.5 * (3*3 + 4*4) = 25/2: the code omits
the square. -/
theorem tikhonov_g_missing_square :
    Tikhonov_g [[3, 4]] = [5 / 2] ∧
      Tikhonov_g [[3, 4]] ≠ [(1 / 2) * (((3 : ℝ)) * 3 + 4 * 4)] := by
  have hsq : sqnorm ([3, 4] : Tensor ℝ) = 25 := by
    norm_num [sqnorm]
  have h5 : Real.sqrt 25 = 5 := by
    rw [show (25 : ℝ) = 5 ^ 2 by norm_num]
    exact Real.sqrt_sq (by norm_num)
  have h1 : Tikhonov_g [[3, 4]] = [5 / 2] := by
    simp only [Tikhonov_g, List.map_cons, List.map_nil, hsq, h5]
    norm_num
  refine ⟨h1, ?_⟩
  rw [h1]
  simp only [ne_eq, List.cons.injEq, and_true]
  norm_num

/-- The attribute state Tikhonov.__init__ (prior.py:156-157) leaves on the
object: it only sets explicit_prior and never runs the base initializer. -/
structure TikhonovState where
  explicit_prior : Bool
  moduleReady : Bool

/-- Embeds Tikhonov.__init__ (prior.py:156-157): sets explicit_prior = True but
never invokes the Prior / nn.Module base initializer, so the module machinery
stays unset. -/
def Tikhonov_init : TikhonovState :=
  { explicit_prior := true, moduleReady := false }

/-- Models the PyTorch module-call path (external collaborator semantics):
instance(x) dispatches through nn.Module.__call__, which touches the hook and
parameter machinery created by nn.Module.__init__ and raises an AttributeError
when that initializer never ran; when it ran, the call reaches the inherited
Prior.forward (prior.py:46-53), which returns self.g(x), here Tikhonov.g. -/
noncomputable def Tikhonov_call (s : TikhonovState) (x : List (Tensor ℝ)) :
    Except PyError (List ℝ) :=
  if s.moduleReady then Except.ok (Tikhonov_g x)
  else Except.error PyError.attributeError

/-- C10: Tikhonov.__init__ leaves the module machinery uninitialized, direct
calls to grad and prox still succeed with their closed forms, the module-call
interface on a Tikhonov instance raises an AttributeError, and the same call
succeeds (returning Tikhonov.g) once the base initializer has run. -/
theorem tikhonov_missing_super_init (x : List (Tensor ℝ)) (t : Tensor ℝ)
    (γ : ℝ) :
    Tikhonov_init.moduleReady = false
      ∧ Tikhonov_grad t = t
      ∧ Tikhonov_prox t γ = smul (1 / (γ + 1)) t
      ∧ Tikhonov_call Tikhonov_init x = Except.error PyError.attributeError
      ∧ Tikhonov_call { explicit_prior := true, moduleReady := true } x =
        Except.ok (Tikhonov_g x) :=
  ⟨rfl, rfl, rfl, rfl, rfl⟩

/-- The length of an elementwise sum is the minimum of the lengths. -/
theorem tadd_length {α : Type} [Add α] (a b : Tensor α) :
    (tadd a b).length = min a.length b.length := by
  simp [tadd]

/-- The length of an elementwise difference is the minimum of the lengths. -/
theorem tsub_length {α : Type} [Sub α] (a b : Tensor α) :
    (tsub a b).length = min a.length b.length := by
  simp [tsub]

/-- Scalar multiplication preserves the length. -/
theorem smul_length {α : Type} [Mul α] (c : α) (a : Tensor α) :
    (smul c a).length = a.length := by
  simp [smul]

/-- C8: one Chambolle-Pock transition (3-tuple state, either g_first value) and
one Condat-Vu transition (2-tuple state) return estimate tuples of the same
arity as their input (by their return types) in which every slot keeps the
length of the corresponding input slot, provided the pluggable prox,
conjugate-prox and linear-operator capabilities preserve lengths as stated. -/
theorem step_preserves_arity_and_shape {α : Type} [Ring α]
    (nx mu nx2 m2 : ℕ) (pr : PriorFns α) (d : DataFidelityFns α)
    (phy phy2 : Physics α) (pcp : CPParams α) (pcv : CVParams α)
    (g_first has_cost has_cost2 : Bool) (beta : α)
    (F_fn : Tensor α → PriorFns α → CPParams α → Tensor α → Physics α → α)
    (F_fn2 : Tensor α → CVParams α → Tensor α → Physics α → α)
    (x z u : Tensor α) (c : Option α) (y : Tensor α)
    (x2 u2 : Tensor α) (c2 : Option α) (y2 : Tensor α)
    (hprox : ∀ (t : Tensor α) (γ g : α), (pr.prox t γ g).length = t.length)
    (hproxc : ∀ (t : Tensor α) (γ g : α),
      (pr.prox_conjugate t γ g).length = t.length)
    (hdprox : ∀ (t yy : Tensor α) (ph : Physics α) (s : α),
      (d.prox t yy ph s).length = t.length)
    (hdconj : ∀ (t yy : Tensor α) (σ l : α),
      (d.prox_d_conjugate t yy σ l).length = t.length)
    (hK : ∀ t : Tensor α, t.length = nx → (dictOp pcp.K t).length = mu)
    (hKadj : ∀ t : Tensor α, t.length = mu → (dictOp pcp.K_adjoint t).length = nx)
    (hA : ∀ t : Tensor α, t.length = nx2 → (phy2.A t).length = m2)
    (hAadj : ∀ t : Tensor α, t.length = m2 → (phy2.A_adjoint t).length = nx2)
    (hx : x.length = nx) (hz : z.length = nx) (hu : u.length = mu)
    (hx2 : x2.length = nx2) (hu2 : u2.length = m2) :
    ((CPIteration_forward d g_first beta has_cost F_fn ⟨(x, z, u), c⟩ pr pcp y
          phy).est.1.length = x.length
      ∧ (CPIteration_forward d g_first beta has_cost F_fn ⟨(x, z, u), c⟩ pr pcp
          y phy).est.2.1.length = z.length
      ∧ (CPIteration_forward d g_first beta has_cost F_fn ⟨(x, z, u), c⟩ pr pcp
          y phy).est.2.2.length = u.length)
    ∧ ((CVIteration_forward d has_cost2 F_fn2 ⟨(x2, u2), c2⟩ pr pcv y2
          phy2).est.1.length = x2.length
      ∧ (CVIteration_forward d has_cost2 F_fn2 ⟨(x2, u2), c2⟩ pr pcv y2
          phy2).est.2.length = u2.length) := by
  constructor
  · cases g_first with
    | false =>
      have hu' : (d.prox_d_conjugate
          (tadd u (smul pcp.sigma (dictOp pcp.K z))) y pcp.sigma
          pcp.lambda).length = mu := by
        rw [hdconj, tadd_length, smul_length, hK z hz, hu, min_self]
      have hx' : (pr.prox
          (tsub x (smul pcp.stepsize (dictOp pcp.K_adjoint
            (d.prox_d_conjugate (tadd u (smul pcp.sigma (dictOp pcp.K z))) y
              pcp.sigma pcp.lambda))))
          pcp.stepsize pcp.g_param).length = nx := by
        rw [hprox, tsub_length, smul_length, hKadj _ hu', hx, min_self]
      have hz' : (tadd (pr.prox
          (tsub x (smul pcp.stepsize (dictOp pcp.K_adjoint
            (d.prox_d_conjugate (tadd u (smul pcp.sigma (dictOp pcp.K z))) y
              pcp.sigma pcp.lambda))))
          pcp.stepsize pcp.g_param)
          (smul beta (tsub (pr.prox
            (tsub x (smul pcp.stepsize (dictOp pcp.K_adjoint
              (d.prox_d_conjugate (tadd u (smul pcp.sigma (dictOp pcp.K z))) y
                pcp.sigma pcp.lambda))))
            pcp.stepsize pcp.g_param) x))).length = z.length := by
        rw [tadd_length, smul_length, tsub_length, hx', hx, min_self, min_self,
          hz]
      exact ⟨hx'.trans hx.symm, hz', hu'.trans hu.symm⟩
    | true =>
      have hu' : (pr.prox_conjugate
          (tadd u (smul pcp.sigma (dictOp pcp.K z))) pcp.sigma
          pcp.g_param).length = mu := by
        rw [hproxc, tadd_length, smul_length, hK z hz, hu, min_self]
      have hx' : (d.prox
          (tsub x (smul pcp.stepsize (dictOp pcp.K_adjoint
            (pr.prox_conjugate (tadd u (smul pcp.sigma (dictOp pcp.K z)))
              pcp.sigma pcp.g_param))))
          y phy (pcp.stepsize * pcp.lambda)).length = nx := by
        rw [hdprox, tsub_length, smul_length, hKadj _ hu', hx, min_self]
      have hz' : (tadd (d.prox
          (tsub x (smul pcp.stepsize (dictOp pcp.K_adjoint
            (pr.prox_conjugate (tadd u (smul pcp.sigma (dictOp pcp.K z)))
              pcp.sigma pcp.g_param))))
          y phy (pcp.stepsize * pcp.lambda))
          (smul beta (tsub (d.prox
            (tsub x (smul pcp.stepsize (dictOp pcp.K_adjoint
              (pr.prox_conjugate (tadd u (smul pcp.sigma (dictOp pcp.K z)))
                pcp.sigma pcp.g_param))))
            y phy (pcp.stepsize * pcp.lambda)) x))).length = z.length := by
        rw [tadd_length, smul_length, tsub_length, hx', hx, min_self, min_self,
          hz]
      exact ⟨hx'.trans hx.symm, hz', hu'.trans hu.symm⟩
  · have hx' : (pr.prox (tsub x2 (smul pcv.stepsize (phy2.A_adjoint u2)))
        pcv.stepsize pcv.g_param).length = nx2 := by
      rw [hprox, tsub_length, smul_length, hAadj u2 hu2, hx2, min_self]
    have harg : (tsub (smul 2
        (pr.prox (tsub x2 (smul pcv.stepsize (phy2.A_adjoint u2))) pcv.stepsize
          pcv.g_param)) x2).length = nx2 := by
      rw [tsub_length, smul_length, hx', hx2, min_self]
    have hu' : (d.prox_d_conjugate (phy2.A (tsub (smul 2
        (pr.prox (tsub x2 (smul pcv.stepsize (phy2.A_adjoint u2))) pcv.stepsize
          pcv.g_param)) x2)) y2 pcv.sigma pcv.lambda).length = m2 := by
      rw [hdconj, hA _ harg]
    exact ⟨hx'.trans hx2.symm, hu'.trans hu2.symm⟩

/-- A concrete Chambolle-Pock parameter dictionary with all scalar entries 1
and no "K" / "K_adjoint" entries. -/
def cpTestParams : CPParams ℤ :=
  { stepsize := 1, sigma := 1, lambda := 1, g_param := 1, K := none,
    K_adjoint := none }

/-- The identity forward operator for concrete evaluations. -/
def idPhysics : Physics ℤ :=
  { A := fun t => t, A_adjoint := fun t => t }

/-- Witness for C8: the shape-preservation theorem applied to identity
capabilities and the concrete states ([1], [1], [1]) and ([1], [1]). -/
theorem step_preserves_arity_and_shape_witness :
    (([1] : Tensor ℤ).length = 1) ∧
      (((CPIteration_forward idFidelityFns false 1 false (fun _ _ _ _ _ => 0)
            { est := ([1], [1], [1]), cost := none } idPriorFns cpTestParams
            [0] idPhysics).est.1.length = ([1] : Tensor ℤ).length
        ∧ (CPIteration_forward idFidelityFns false 1 false (fun _ _ _ _ _ => 0)
            { est := ([1], [1], [1]), cost := none } idPriorFns cpTestParams
            [0] idPhysics).est.2.1.length = ([1] : Tensor ℤ).length
        ∧ (CPIteration_forward idFidelityFns false 1 false (fun _ _ _ _ _ => 0)
            { est := ([1], [1], [1]), cost := none } idPriorFns cpTestParams
            [0] idPhysics).est.2.2.length = ([1] : Tensor ℤ).length)
      ∧ ((CVIteration_forward idFidelityFns false (fun _ _ _ _ => 0)
            { est := ([1], [1]), cost := none } idPriorFns cvTestParams [0]
            idPhysics).est.1.length = ([1] : Tensor ℤ).length
        ∧ (CVIteration_forward idFidelityFns false (fun _ _ _ _ => 0)
            { est := ([1], [1]), cost := none } idPriorFns cvTestParams [0]
            idPhysics).est.2.length = ([1] : Tensor ℤ).length)) :=
  ⟨rfl,
    step_preserves_arity_and_shape 1 1 1 1 idPriorFns idFidelityFns idPhysics
      idPhysics cpTestParams cvTestParams false false false 1
      (fun _ _ _ _ _ => 0) (fun _ _ _ _ => 0) [1] [1] [1] none [0] [1] [1]
      none [0] (fun _ _ _ => rfl) (fun _ _ _ => rfl) (fun _ _ _ _ => rfl)
      (fun _ _ _ _ => rfl) (fun _ h => h) (fun _ h => h) (fun _ h => h)
      (fun _ h => h) rfl rfl rfl rfl rfl⟩

/-- Modelled from the spec: one entry of the parameter schedule is either a
single value shared across all iterations or a per-iteration sequence (§3 of
the spec). -/
inductive ParamSpec (α : Type) where
  | scalar : α → ParamSpec α
  | seq : List α → ParamSpec α
  deriving DecidableEq

/-- Modelled from the spec: schedule normalization — a scalar entry is
broadcast to one value per iteration, a sequence entry is used as supplied
(its length must equal the iteration budget). -/
def normalizeSpec {α : Type} (max_iter : ℕ) : ParamSpec α → List α
  | ParamSpec.scalar v => List.replicate max_iter v
  | ParamSpec.seq vs => vs

/-- An unrolled model's parameters: per-name value lists with one value per
unrolled position, split into trainable weights and fixed constants. -/
structure UnfoldedModel (α : Type) where
  trainable : List (String × List α)
  fixed : List (String × List α)

/-- Modelled from the spec: `unfolded_builder` (deepinv.unfolded) is not under
src/; per §4.5 of the spec it promotes the schedule entries named in
trainable_params to trainable weights, one independent value per unrolled
position, and keeps every remaining entry as a fixed constant taken from the
supplied schedule. -/
def unfolded_builder {α : Type} (params_algo : List (String × ParamSpec α))
    (trainable_params : List String) (max_iter : ℕ) : UnfoldedModel α :=
  { trainable :=
      (params_algo.filter (fun q => decide (q.1 ∈ trainable_params))).map
        (fun q => (q.1, normalizeSpec max_iter q.2)),
    fixed :=
      (params_algo.filter (fun q => !decide (q.1 ∈ trainable_params))).map
        (fun q => (q.1, normalizeSpec max_iter q.2)) }

/-- Filtering for the trainable name drops every entry bearing other names. -/
theorem filter_contains_eq_nil (l : List (String × ParamSpec ℚ))
    (h : ∀ q ∈ l, q.1 ≠ "stepsize") :
    l.filter (fun q => decide (q.1 ∈ (["stepsize"] : List String))) = [] := by
  induction l with
  | nil => rfl
  | cons q qs ih =>
    have hq : q.1 ≠ "stepsize" := h q (List.mem_cons_self q qs)
    simp [List.filter_cons, hq,
      ih (fun r hr => h r (List.mem_cons_of_mem q hr))]
    exact fun a b hab => h (a, b) (List.mem_cons_of_mem q hab)

/-- Filtering against the trainable name keeps every entry bearing other
names. -/
theorem filter_not_contains_eq_self (l : List (String × ParamSpec ℚ))
    (h : ∀ q ∈ l, q.1 ≠ "stepsize") :
    l.filter (fun q => !decide (q.1 ∈ (["stepsize"] : List String))) = l := by
  induction l with
  | nil => rfl
  | cons q qs ih =>
    have hq : q.1 ≠ "stepsize" := h q (List.mem_cons_self q qs)
    simp [List.filter_cons, hq,
      ih (fun r hr => h r (List.mem_cons_of_mem q hr))]
    exact fun a b hab => h (a, b) (List.mem_cons_of_mem q hab)

/-- C9: with trainable_params = ["stepsize"] and iteration budget n, the built
model's trainable parameters are exactly one entry named "stepsize" holding
one independent value per unrolled position (n values, given that the
supplied schedule entry normalizes to length n), every trainable entry bears
a name from trainable_params, and every other schedule entry stays a fixed
constant equal to its supplied (normalized) schedule values. -/
theorem unfolded_stepsize_trainable (n : ℕ) (sp : ParamSpec ℚ)
    (rest : List (String × ParamSpec ℚ))
    (hsp : (normalizeSpec n sp).length = n)
    (hrest : ∀ q ∈ rest, q.1 ≠ "stepsize") :
    (unfolded_builder (("stepsize", sp) :: rest) ["stepsize"] n).trainable =
        [("stepsize", normalizeSpec n sp)]
      ∧ (∀ q ∈ (unfolded_builder (("stepsize", sp) :: rest) ["stepsize"]
          n).trainable, q.1 ∈ (["stepsize"] : List String) ∧ q.2.length = n)
      ∧ (unfolded_builder (("stepsize", sp) :: rest) ["stepsize"] n).fixed =
        rest.map (fun q => (q.1, normalizeSpec n q.2)) := by
  have hnil := filter_contains_eq_nil rest hrest
  have hself := filter_not_contains_eq_self rest hrest
  have htr : (unfolded_builder (("stepsize", sp) :: rest) ["stepsize"]
      n).trainable = [("stepsize", normalizeSpec n sp)] := by
    simp only [unfolded_builder, List.filter_cons]
    rw [hnil]
    simp
  have hfx : (unfolded_builder (("stepsize", sp) :: rest) ["stepsize"]
      n).fixed = rest.map (fun q => (q.1, normalizeSpec n q.2)) := by
    simp only [unfolded_builder, List.filter_cons]
    rw [hself]
    simp
  refine ⟨htr, ?_, hfx⟩
  intro q hq
  rw [htr, List.mem_singleton] at hq
  subst hq
  exact ⟨List.mem_singleton.mpr rfl, hsp⟩

/-- Witness for C9: the builder applied to the schedule
[("stepsize", scalar 1), ("lambda", scalar 2)] with budget 3. -/
theorem unfolded_stepsize_trainable_witness :
    ((normalizeSpec 3 (ParamSpec.scalar (1 : ℚ))).length = 3) ∧
      ((unfolded_builder [("stepsize", ParamSpec.scalar (1 : ℚ)),
            ("lambda", ParamSpec.scalar 2)] ["stepsize"] 3).trainable =
          [("stepsize", normalizeSpec 3 (ParamSpec.scalar (1 : ℚ)))]
        ∧ (∀ q ∈ (unfolded_builder [("stepsize", ParamSpec.scalar (1 : ℚ)),
            ("lambda", ParamSpec.scalar 2)] ["stepsize"] 3).trainable,
            q.1 ∈ (["stepsize"] : List String) ∧ q.2.length = 3)
        ∧ (unfolded_builder [("stepsize", ParamSpec.scalar (1 : ℚ)),
            ("lambda", ParamSpec.scalar 2)] ["stepsize"] 3).fixed =
          [(("lambda", ParamSpec.scalar (2 : ℚ)))].map
            (fun q => (q.1, normalizeSpec 3 q.2))) :=
  ⟨rfl,
    unfolded_stepsize_trainable 3 (ParamSpec.scalar 1)
      [("lambda", ParamSpec.scalar 2)] rfl
      (by
        intro q hq
        rw [List.mem_singleton] at hq
        subst hq
        decide)⟩

end DeepInv
